import Mathlib

/-!
Verification of the Automata MCP server core (plugin discovery, route
synthesis, authentication, configuration merging) against a shallow
embedding of `src/app/server.py`, `src/app/routers.py`,
`src/app/extension_config/config_manager.py`, `src/app/base_tool.py`
and the per-plugin `*_tool.py` dispatch code.
-/

namespace Automata

/-! ## Authentication (`AutomataMCPServer.authenticate`, server.py lines 582-602) -/

/-- Python's `str.strip()` whitespace predicate restricted to the ASCII
whitespace characters (space, tab, newline, carriage return, vertical tab,
form feed). -/
def pyIsSpace (c : Char) : Bool :=
  c = ' ' || c = '\t' || c = '\n' || c = '\r' || c = '\x0b' || c = '\x0c'

/-- Python's `str.strip()`: drop leading and trailing whitespace. -/
def pyStrip (s : String) : String :=
  ⟨((s.data.dropWhile pyIsSpace).reverse.dropWhile pyIsSpace).reverse⟩

/-- Python's `str.lower()` (ASCII case mapping, per character). -/
def pyToLower (s : String) : String :=
  ⟨s.data.map Char.toLower⟩

/-- `AutomataMCPServer.authenticate` (server.py lines 582-602).
`apiKeyCfg` models `self.api_key = os.getenv("AUTOMATA_API_KEY")`
(`none` = unset; Python treats `None` and `""` alike via `if not self.api_key`).
`hmac.compare_digest` on equal-typed strings returns plain equality, so it is
modelled as string equality of the stripped values. -/
def authenticate (apiKeyCfg : Option String) (api_key : String) : Bool :=
  -- `if not self.api_key: return True` (development mode)
  if apiKeyCfg.getD "" = "" then true
  -- `if not api_key or not isinstance(api_key, str): return False`
  else if api_key = "" then false
  -- `if len(api_key.strip()) < 8: return False`
  else if (pyStrip api_key).length < 8 then false
  -- `return hmac.compare_digest(api_key.strip(), self.api_key.strip())`
  else pyStrip api_key = pyStrip (apiKeyCfg.getD "")

/-! ## JSON-ish values (request arguments and configuration values) -/

/-- A JSON-like value, used both for request argument maps and for the
central configuration store (`config.json` contents, YAML
`config_requirements`). Python floats are modelled as rationals. -/
inductive ConfigValue where
  | str (s : String)
  | int (n : Int)
  | float (q : Rat)
  | bool (b : Bool)
  | list (xs : List ConfigValue)
  | dict (fields : List (String × ConfigValue))
  | null

/-- An argument map (`dict[str, Any]`), in insertion order. -/
abbrev Args := List (String × ConfigValue)

/-- Python `dict.get(key)` over an insertion-ordered association list
(`None` when absent). Python dicts have at most one entry per key; on lists
with duplicate keys this returns the first. -/
def dictGet {α : Type} (l : List (String × α)) (k : String) : Option α :=
  match l with
  | [] => none
  | (a, b) :: tl => if a = k then some b else dictGet tl k

/-! ## Content items and exception values -/

/-- `mcp.types` content: a `TextContent` has attributes `type` and `text`;
an `ImageContent` has `type`, `data`, `mimeType` (no `text`); an
`EmbeddedResource` has `type` and a resource payload (no `text`). -/
inductive ContentItem where
  | text (type_ : String) (body : String)
  | image (type_ : String) (data : String) (mimeType : String)
  | resource (type_ : String)
deriving DecidableEq

/-- `hasattr(item, "type")`: every content variant carries a `type` field. -/
def hasTypeAttr (_ : ContentItem) : Bool := true

/-- `hasattr(item, "text")`: only `TextContent` carries a `text` field. -/
def hasTextAttr : ContentItem → Bool
  | .text _ _ => true
  | _ => false

/-- `item.type`. -/
def itemType : ContentItem → String
  | .text t _ => t
  | .image t _ _ => t
  | .resource t => t

/-- `item.text`; only read under `hasattr(item, "text")`, so the value for
the other variants is never observed. -/
def itemText : ContentItem → String
  | .text _ x => x
  | _ => ""

/-- A raised Python exception, as far as the route layer observes it. -/
inductive PyErr where
  | valueError (msg : String)
  | mcpError (code : Int) (msg : String)
  | httpException (status : Nat) (detail : String)
  | exception (msg : String)
deriving DecidableEq

/-- Python `str(e)` as used by the routers' `except` clauses. -/
def PyErr.str : PyErr → String
  | .valueError m => m
  | .mcpError _ m => m
  | .httpException _ d => d
  | .exception m => m

/-- Result of `await tool_instance.call_tool(...)`: either a content list or a
raised exception. -/
abbrev PyResult := Except PyErr (List ContentItem)

/-- The list comprehension
`[{"type": item.type, "text": item.text} for item in result
  if hasattr(item, "type") and hasattr(item, "text")]`
shared by `server.py` `create_tool_endpoint` (lines 520-526 and 544-551) and
`routers.py` `create_form_endpoint`/`create_json_endpoint` (lines 206-210 and
243-247). -/
def renderContent (result : List ContentItem) : List (String × String) :=
  result.filterMap fun item =>
    if hasTypeAttr item && hasTextAttr item then some (itemType item, itemText item)
    else none

/-! ## Synthesized endpoint handlers -/

/-- The uniform response envelope built by `routers.py` (lines 211, 213, 248,
250): `{"success": ..., "data": {"content": ...} | None, "error": ...}`. -/
structure BaseResponse where
  success : Bool
  data : Option (List (String × String))
  error : Option String
deriving DecidableEq

/-- The JSON-mode handler body synthesized by `server.py`
`create_tool_endpoint` (lines 533-551): after FastAPI has validated `params`,
it calls `call_tool` with no surrounding `try`/`except` and returns
`{"content": [...]}`; a raised exception leaves the handler (`.error`). -/
def serverToolEndpointJson (call_tool : String → Args → PyResult)
    (tool_name : String) (params : Args) : Except PyErr (List (String × String)) :=
  match call_tool tool_name params with
  | .ok result => .ok (renderContent result)
  | .error e => .error e

/-- The form-mode handler body synthesized by `server.py`
`create_tool_endpoint` (lines 501-526): validates the form data with the
params class (`HTTPException 422` on `ValueError`), then calls `call_tool`
with no surrounding `try`/`except`. -/
def serverToolEndpointForm (validate : Args → Except String Args)
    (call_tool : String → Args → PyResult)
    (tool_name : String) (form_data : Args) :
    Except PyErr (List (String × String)) :=
  match validate form_data with
  | .error m => .error (.httpException 422 m)
  | .ok args =>
    match call_tool tool_name args with
    | .ok result => .ok (renderContent result)
    | .error e => .error e

/-- The JSON-mode handler body of `routers.py` `create_json_endpoint`
(lines 232-250): the `call_tool` invocation is wrapped in `try`/`except`; a
raised exception is converted into `{"success": False, "data": None,
"error": str(e)}`. -/
def createJsonEndpointBody (call_tool : String → Args → PyResult)
    (tool_name : String) (params : Args) : Except PyErr BaseResponse :=
  match call_tool tool_name params with
  | .ok result => .ok ⟨true, some (renderContent result), none⟩
  | .error e => .ok ⟨false, none, some e.str⟩

/-- The form-mode handler body of `routers.py` `create_form_endpoint`
(lines 188-213): params-class validation maps `ValueError` to an
`HTTPException 422` that propagates; the `call_tool` invocation itself is
wrapped in `try`/`except` and converted into the envelope. -/
def createFormEndpointBody (validate : Args → Except String Args)
    (call_tool : String → Args → PyResult)
    (tool_name : String) (form_data : Args) : Except PyErr BaseResponse :=
  match validate form_data with
  | .error m => .error (.httpException 422 m)
  | .ok args =>
    match call_tool tool_name args with
    | .ok result => .ok ⟨true, some (renderContent result), none⟩
    | .error e => .ok ⟨false, none, some e.str⟩

/-! ## Per-plugin `call_tool` dispatch -/

/-- `mcp.types.INVALID_PARAMS`. -/
def INVALID_PARAMS : Int := -32602

/-- `mcp.types.INTERNAL_ERROR`. -/
def INTERNAL_ERROR : Int := -32603

/-- The thirteen plugins under `src/app/src/`, each implementing the
`BaseMCPTool` contract (`list_tools`, `call_tool`, `get_route_config`). -/
inductive ToolId where
  | douyin
  | douyinCookie
  | echo
  | fetch
  | imageUpload
  | longTextContent
  | polish
  | videoEdit
  | videoGenerate
  | videoUpload
  | xiaohongshu
  | xiaohongshuCookie
  | zhihuGet
deriving DecidableEq

/-- The `name` fields of the `Tool` entries returned by each plugin's
`list_tools` (`*_tool.py`); only the names are modelled. -/
def listToolNames : ToolId → List String
  | .douyin => ["douyin_publish"]
  | .douyinCookie =>
      ["get_douyin_cookies", "load_douyin_cookies", "validate_douyin_cookies"]
  | .echo => ["echo"]
  | .fetch => ["fetch"]
  | .imageUpload => ["image_upload"]
  | .longTextContent => ["create_long_text_content"]
  | .polish => ["polish"]
  | .videoEdit => ["edit_video"]
  | .videoGenerate => ["video_generate"]
  | .videoUpload => ["video_upload"]
  | .xiaohongshu => ["xiaohongshu_publish"]
  | .xiaohongshuCookie =>
      ["get_xiaohongshu_cookies", "load_xiaohongshu_cookies",
       "validate_xiaohongshu_cookies"]
  | .zhihuGet => ["zhihu_get"]

/-- The name-dispatch prologue of each plugin's `call_tool`; the per-name
handler bodies (browser automation, rendering, uploads) are out-of-scope
collaborators and are abstracted as `body`, which is only reached for an
accepted name. Every other branch is the literal `raise ValueError(...)`
from the corresponding `*_tool.py`. -/
def callToolDispatch (t : ToolId) (body : String → Args → PyResult)
    (name : String) (args : Args) : PyResult :=
  match t with
  | .douyin =>
      if name ≠ "douyin_publish" then .error (.valueError ("Unknown tool: " ++ name))
      else body name args
  | .douyinCookie =>
      if name = "get_douyin_cookies" then body name args
      else if name = "load_douyin_cookies" then body name args
      else if name = "validate_douyin_cookies" then body name args
      else .error (.valueError ("Unknown tool name: " ++ name))
  | .echo =>
      if name ≠ "echo" then .error (.valueError ("Unknown tool: " ++ name))
      else body name args
  | .fetch =>
      if name ≠ "fetch" then .error (.valueError ("Unknown tool: " ++ name))
      else body name args
  | .imageUpload =>
      if name ≠ "image_upload" then .error (.valueError ("Unknown tool: " ++ name))
      else body name args
  | .longTextContent =>
      if name ≠ "create_long_text_content" then
        .error (.valueError ("Unknown tool: " ++ name))
      else body name args
  | .polish =>
      if name ≠ "polish" then .error (.valueError ("Unknown tool: " ++ name))
      else body name args
  | .videoEdit =>
      if name = "edit_video" then body name args
      else .error (.valueError ("Unknown tool name: " ++ name))
  | .videoGenerate =>
      if name ≠ "video_generate" then .error (.valueError ("Unknown tool: " ++ name))
      else body name args
  | .videoUpload =>
      if name ≠ "video_upload" then .error (.valueError ("Unknown tool: " ++ name))
      else body name args
  | .xiaohongshu =>
      if name ≠ "xiaohongshu_publish" then
        .error (.valueError ("Unknown tool: " ++ name))
      else body name args
  | .xiaohongshuCookie =>
      if name = "get_xiaohongshu_cookies" then body name args
      else if name = "load_xiaohongshu_cookies" then body name args
      else if name = "validate_xiaohongshu_cookies" then body name args
      else .error (.valueError ("Unknown tool name: " ++ name))
  | .zhihuGet =>
      if name ≠ "zhihu_get" then .error (.valueError ("Unknown tool: " ++ name))
      else body name args

/-! ## The polish plugin's `call_tool` (polish_tool.py lines 44-88) -/

/-- Pydantic validation of `PolishParams(**arguments)`: `original_text` and
`prompt` are required string fields. -/
def parsePolishParams (args : Args) : Except String (String × String) :=
  match dictGet args "original_text", dictGet args "prompt" with
  | some (.str o), some (.str p) => .ok (o, p)
  | _, _ => .error "validation error for PolishParams"

/-- The messages the polish plugin sends to the LLM client. -/
def polishMessages (prompt original_text : String) : List (String × String) :=
  [("system",
    "You are a professional text polisher. Your task is to polish the provided text according to the given prompt."),
   ("user",
    "Prompt: " ++ prompt ++ "\n\nOriginal Text:\n" ++ original_text ++
      "\n\nPlease provide the polished version:")]

/-- `PolishTool.call_tool` (polish_tool.py lines 44-88); the outbound LLM call
(`self.llm_client.generate`) is an external collaborator abstracted as
`llm_generate`. -/
def polishCallTool (llm_generate : List (String × String) → Except PyErr String)
    (name : String) (arguments : Args) : PyResult :=
  if name ≠ "polish" then .error (.valueError ("Unknown tool: " ++ name))
  else
    match parsePolishParams arguments with
    | .error m => .error (.mcpError INVALID_PARAMS m)
    | .ok (original_text, prompt) =>
      if pyStrip original_text = "" then
        .error (.mcpError INVALID_PARAMS "Original text is required")
      else if pyStrip prompt = "" then
        .error (.mcpError INVALID_PARAMS "Prompt is required")
      else
        match llm_generate (polishMessages prompt original_text) with
        | .error e => .error (.mcpError INTERNAL_ERROR ("Failed to polish text: " ++ e.str))
        | .ok polished_text => .ok [.text "text" polished_text]

/-! ## Route configuration validation and registration
(`server.py` `register_tool_routes` lines 426-580,
`routers.py` `get_route_configs` lines 80-119) -/

/-- Python truthiness of `route_config.get(...)`: `None` and the empty string
are falsy. -/
def pyTruthyOptStr : Option String → Bool
  | none => false
  | some s => !s.isEmpty

/-- One element of the value returned by `get_route_config`: either not a
dict at all, or a dict whose relevant keys are read with `.get`
(`none` models an absent key). The params class is identified by its name. -/
inductive RouteConfigEntry where
  | nonDict
  | mk (endpoint : Option String) (params_class : Option String)
      (use_form : Bool) (tool_name : Option String)
deriving DecidableEq

/-- The raw value returned by a plugin's `get_route_config`: a single dict
(wrapped into a one-element list), a list of dicts, or anything else. -/
inductive RouteConfigsValue where
  | single (c : RouteConfigEntry)
  | listOf (cs : List RouteConfigEntry)
  | other
deriving DecidableEq

/-- The per-entry loop of `server.py` `register_tool_routes` (lines 558-580):
invalid or incomplete configs log one error (`logger.error`) and are skipped
(`continue`); valid ones register one route (`self.app.post(endpoint)`) whose
handler is bound to `tool_name_default = route_config.get("tool_name",
modname)`. The result is (registered `(endpoint, tool_name_default)` pairs in
order, number of `logger.error` calls). -/
def registerRouteEntries (modname : String) :
    List RouteConfigEntry → List (String × String) × Nat
  | [] => ([], 0)
  | rc :: rest =>
    let r := registerRouteEntries modname rest
    match rc with
    | .nonDict => (r.1, r.2 + 1)
    | .mk ep pc _uf tn =>
      if pyTruthyOptStr ep && pyTruthyOptStr pc then
        ((ep.getD "", tn.getD modname) :: r.1, r.2)
      else (r.1, r.2 + 1)

/-- `server.py` `register_tool_routes` (lines 426-580): a single dict is
wrapped into a list (line 430-431), a non-dict non-list value logs one error
and registers nothing (lines 432-436), and each entry is processed by the
loop. -/
def registerToolRoutes (modname : String) (rcv : RouteConfigsValue) :
    List (String × String) × Nat :=
  match rcv with
  | .single c => registerRouteEntries modname [c]
  | .listOf cs => registerRouteEntries modname cs
  | .other => ([], 1)

/-- A normalized route configuration as built by `routers.py`
`get_route_configs` (lines 110-117). -/
structure NormalizedRouteConfig where
  endpoint : String
  params_class : String
  use_form : Bool
  tool_name : String
deriving DecidableEq

/-- The validation loop of `routers.py` `get_route_configs` (lines 97-119):
same skipping/logging policy as the server loop, but it returns the
normalized configs. -/
def validateRouteEntries (modname : String) :
    List RouteConfigEntry → List NormalizedRouteConfig × Nat
  | [] => ([], 0)
  | rc :: rest =>
    let r := validateRouteEntries modname rest
    match rc with
    | .nonDict => (r.1, r.2 + 1)
    | .mk ep pc uf tn =>
      if pyTruthyOptStr ep && pyTruthyOptStr pc then
        (⟨ep.getD "", pc.getD "", uf, tn.getD modname⟩ :: r.1, r.2)
      else (r.1, r.2 + 1)

/-- `routers.py` `get_route_configs` (lines 80-119). -/
def getRouteConfigs (modname : String) (rcv : RouteConfigsValue) :
    List NormalizedRouteConfig × Nat :=
  match rcv with
  | .single c => validateRouteEntries modname [c]
  | .listOf cs => validateRouteEntries modname cs
  | .other => ([], 1)

/-! ## Plugin discovery
(`server.py` `discover_tools` / `_discover_tools_in_directory` /
`_load_and_register_tool`, lines 295-424) -/

/-- Everything `_load_and_register_tool` observes about one candidate plugin
directory: its name (the directory name), whether it is a candidate at all
(`item.is_dir() and (item / "__init__.py").exists()`), and the outcome of
each loading step. `instanceId` identifies the constructed instance. -/
structure ToolSpec where
  name : String
  isCandidate : Bool
  hasToolFile : Bool
  importOk : Bool
  hasToolClass : Bool
  isSubclass : Bool
  ctorOk : Bool
  instanceId : Nat
deriving DecidableEq

/-- The failure steps of `_load_and_register_tool`, each wrapped as a
`ToolLoadError` in the source. -/
inductive LoadError where
  | toolFileNotFound
  | importFailed
  | classNotFound
  | contractViolation
  | ctorRaised
deriving DecidableEq

/-- `_load_and_register_tool` (server.py lines 322-391) up to the point of
registration: the checks happen in source order (tool file, import,
`_get_tool_class`, `_validate_tool_class`, instantiation); the first failing
step raises `ToolLoadError` and nothing is registered. -/
def loadAndRegisterToolResult (spec : ToolSpec) : Except LoadError Nat :=
  if ¬spec.hasToolFile then .error .toolFileNotFound
  else if ¬spec.importOk then .error .importFailed
  else if ¬spec.hasToolClass then .error .classNotFound
  else if ¬spec.isSubclass then .error .contractViolation
  else if ¬spec.ctorOk then .error .ctorRaised
  else .ok spec.instanceId

/-- The in-memory plugin registry `self.tools`, a Python dict in insertion
order. -/
abbrev Registry := List (String × Nat)

/-- Python dict assignment `d[k] = v` (e.g. `self.tools[modname] =
tool_instance`, server.py line 361): an existing key keeps its position and
gets the new value; a new key is appended. Python dicts never hold duplicate
keys, so replacing the first occurrence is faithful. -/
def dictAssign {α : Type} (reg : List (String × α)) (k : String) (v : α) :
    List (String × α) :=
  match reg with
  | [] => [(k, v)]
  | (a, b) :: tl => if a = k then (k, v) :: tl else (a, b) :: dictAssign tl k v

/-- One iteration of `_discover_tools_in_directory` (server.py lines 309-320):
non-candidate entries are skipped; a load failure is caught
(`handle_exception` + `continue`) leaving the registry unchanged; a success
is assigned into the registry. There is no check for an already-registered
name. -/
def discoverStep (reg : Registry) (spec : ToolSpec) : Registry :=
  if ¬spec.isCandidate then reg
  else
    match loadAndRegisterToolResult spec with
    | .ok inst => dictAssign reg spec.name inst
    | .error _ => reg

/-- `_discover_tools_in_directory`: the loop over a root's entries. -/
def discoverToolsInDirectory (reg : Registry) (specs : List ToolSpec) : Registry :=
  specs.foldl discoverStep reg

/-- One plugin root (`self.tools_dirs` element): `valid` models
`_validate_tools_directory` (exists and is a directory); an invalid root is
logged and skipped without affecting the others. -/
structure PluginRoot where
  valid : Bool
  specs : List ToolSpec
deriving DecidableEq

/-- `discover_tools` (server.py lines 295-307): process every root in order,
starting from the empty registry. -/
def discoverTools (roots : List PluginRoot) : Registry :=
  roots.foldl
    (fun reg root =>
      if root.valid then discoverToolsInDirectory reg root.specs else reg)
    []

/-! ## Extension configuration manager
(`src/app/extension_config/config_manager.py`) -/

/-- One extension's section of the central `config.json`. -/
abbrev ExtensionSection := List (String × ConfigValue)

/-- The central persisted `config.json`: plugin name → key/value section. -/
abbrev CentralConfig := List (String × ExtensionSection)

/-- The `type_defaults` table of `_merge_config_requirements`
(config_manager.py lines 118-130), applied to the already-lowercased type
name; `.get(..., "")` falls back to the empty string. -/
def typeZeroValue (tLower : String) : ConfigValue :=
  if tLower = "string" then .str ""
  else if tLower = "str" then .str ""
  else if tLower = "int" then .int 0
  else if tLower = "float" then .float 0
  else if tLower = "bool" then .bool false
  else if tLower = "list" then .list []
  else if tLower = "dict" then .dict []
  else .str ""

/-- The template chosen for one missing requirement
(config_manager.py lines 111-136): a dict with a `default` uses it; else a
dict with a `type` synthesizes the zero value for `value["type"].lower()`
(`none` models the `AttributeError` Python raises when the declared `type`
is not a string); else a dict is taken as a nested config object; a
non-dict value is used verbatim. -/
def templateValue (value : ConfigValue) : Option ConfigValue :=
  match value with
  | .dict fields =>
    match dictGet fields "default" with
    | some d => some d
    | none =>
      match dictGet fields "type" with
      | some (.str t) => some (typeZeroValue (pyToLower t))
      | some _ => none
      | none => some value
  | v => some v

/-- The key loop of `_merge_config_requirements`
(config_manager.py lines 109-141): keys already present are untouched;
missing keys are added (dict insertion appends) and set the
`was_modified` flag. -/
def mergeRequirements (extCfg : ExtensionSection) :
    List (String × ConfigValue) → Option (ExtensionSection × Bool)
  | [] => some (extCfg, false)
  | (key, value) :: rest =>
    if (dictGet extCfg key).isSome then mergeRequirements extCfg rest
    else
      (templateValue value).bind fun tv =>
        (mergeRequirements (extCfg ++ [(key, tv)]) rest).map fun r => (r.1, true)

/-- `if extension_name not in central_config: central_config[extension_name]
= {}` (config_manager.py lines 103-104). -/
def ensureSection (central : CentralConfig) (name : String) : CentralConfig :=
  if (dictGet central name).isSome then central else central ++ [(name, [])]

/-- `_merge_config_requirements` (config_manager.py lines 86-143): ensure the
extension's section exists, merge the requirements into it, and reflect the
in-place mutation of the nested section back into the central config. -/
def mergeConfigRequirements (central : CentralConfig) (extension_name : String)
    (config_requirements : List (String × ConfigValue)) :
    Option (CentralConfig × Bool) :=
  let central' := ensureSection central extension_name
  let ext := (dictGet central' extension_name).getD []
  (mergeRequirements ext config_requirements).map fun r =>
    (dictAssign central' extension_name r.1, r.2)

/-- `get_extension_config` (config_manager.py lines 145-184). `store` is the
persisted central config as `_load_config` returns it;
`config_requirements` is what `_load_extension_yaml(...).get
("config_requirements", {})` returns. The result is `none` when the merge
raises, otherwise (the persisted store after the call — saved only when
`was_modified` —, the `was_modified` flag, the returned section
`central_config.get(extension_name, {})`). -/
def getExtensionConfig (store : CentralConfig) (extension_name : String)
    (config_requirements : List (String × ConfigValue)) (auto_create : Bool) :
    Option (CentralConfig × Bool × ExtensionSection) :=
  if auto_create && !config_requirements.isEmpty then
    match mergeConfigRequirements store extension_name config_requirements with
    | none => none
    | some (updated, was_modified) =>
      some (if was_modified then updated else store, was_modified,
        (dictGet updated extension_name).getD [])
  else some (store, false, (dictGet store extension_name).getD [])

/-- `get_config_value` (config_manager.py lines 186-204): calls
`get_extension_config` (with the default `auto_create=True`) and reads the
key out of the returned section with the given default. -/
def getConfigValue (store : CentralConfig) (extension_name key : String)
    (config_requirements : List (String × ConfigValue)) (dflt : ConfigValue) :
    Option ConfigValue :=
  (getExtensionConfig store extension_name config_requirements true).map
    fun r => (dictGet r.2.2 key).getD dflt

/-- Modelled from the spec (section 4.4 and claim C7): the fixed zero-value
table `string→"", int→0, float→0.0, bool→false, list→[], dict→{}`, `none`
outside the table. Used only to compare the spec's table with the source's
`typeZeroValue`. -/
def specZeroValue (t : String) : Option ConfigValue :=
  if t = "string" then some (.str "")
  else if t = "int" then some (.int 0)
  else if t = "float" then some (.float 0)
  else if t = "bool" then some (.bool false)
  else if t = "list" then some (.list [])
  else if t = "dict" then some (.dict [])
  else none

end Automata

open Automata

/-- C3 counterexample: the claim says that with a configured secret,
`authenticate` returns true for a request presenting exactly the configured
secret. With the secret `"short"` (stripped length 5 < 8), presenting exactly
`"short"` is rejected, so the claim is false as stated. -/
theorem authenticate_exact_secret_rejected_counterexample :
    authenticate (some "short") "short" = false := by decide

/-- C3 (amended): if no API key secret is configured (unset or empty), every
presented header value authenticates; if a non-empty secret is configured,
`authenticate` returns true exactly when the presented key, stripped of
leading/trailing whitespace, has at least 8 characters and equals the
stripped secret. -/
theorem authenticate_characterization (s key : String)
    (hs : s ≠ "") :
    (authenticate none key = true ∧ authenticate (some "") key = true) ∧
    (authenticate (some s) key =
      (decide (8 ≤ (pyStrip key).length) && decide (pyStrip key = pyStrip s))) := by
  constructor
  · constructor <;> simp [authenticate]
  · simp only [authenticate, Option.getD, hs]
    by_cases hk : key = ""
    · subst hk
      simp [pyStrip, pyIsSpace]
    · by_cases hlen : (pyStrip key).length < 8
      · simp [hs, hk, hlen, Nat.not_le.mpr hlen]
      · simp [hs, hk, hlen, Nat.not_lt.mp hlen]

/-- C3 witness: instantiation of the amended characterization at the secret
`"secretkey123"` and the presented key `" secretkey123 "`. -/
theorem authenticate_characterization_witness :
    ("secretkey123" ≠ "") ∧
    ((authenticate none " secretkey123 " = true ∧
      authenticate (some "") " secretkey123 " = true) ∧
     (authenticate (some "secretkey123") " secretkey123 " =
       (decide (8 ≤ (pyStrip " secretkey123 ").length) &&
        decide (pyStrip " secretkey123 " = pyStrip "secretkey123")))) :=
  ⟨by decide,
   authenticate_characterization "secretkey123" " secretkey123 " (by decide)⟩

/-- C10: with a non-empty configured secret, `authenticate` compares the
presented key and the secret after stripping leading/trailing whitespace from
both, and unconditionally returns false whenever the stripped presented key
has fewer than 8 characters — even when the presented key equals the
configured secret exactly. -/
theorem authenticate_strip_and_min_length (s key : String) (hs : s ≠ "") :
    ((pyStrip key).length < 8 → authenticate (some s) key = false) ∧
    (8 ≤ (pyStrip key).length →
      authenticate (some s) key = decide (pyStrip key = pyStrip s)) := by
  constructor
  · intro hlen
    by_cases hk : key = "" <;>
      simp [authenticate, Option.getD, hs, hk, hlen]
  · intro hlen
    have hk : key ≠ "" := by
      intro h
      subst h
      simp [pyStrip, pyIsSpace] at hlen
    simp [authenticate, Option.getD, hs, hk, Nat.not_lt.mpr hlen]

/-- C10 witness: the secret `"short"` (stripped length 5) presented exactly is
rejected, and a long-enough key is compared by stripped equality. -/
theorem authenticate_strip_and_min_length_witness :
    ("short" ≠ "") ∧
    (((pyStrip "short").length < 8 → authenticate (some "short") "short" = false) ∧
     (8 ≤ (pyStrip "short").length →
       authenticate (some "short") "short" = decide (pyStrip "short" = pyStrip "short"))) :=
  ⟨by decide, authenticate_strip_and_min_length "short" "short" (by decide)⟩

/-- C1: the claim says every synthesized plugin endpoint catches exceptions
from `call_tool` and returns `{success:false, data:null, error:<message>}`.
The handlers actually registered by `server.register_tool_routes` (the nested
`create_tool_endpoint` of server.py) have no `try`/`except`: at the concrete
request below (the registered `/tools/polish` JSON route, body with a blank
`original_text`), the `McpError` raised inside `PolishTool.call_tool` leaves
the handler and reaches the framework's default handler. The envelope
behavior exists only in `routers.create_json_endpoint`, which `server.py`
never calls. -/
theorem server_endpoint_lets_exception_propagate :
    serverToolEndpointJson (polishCallTool fun _ => .ok "polished") "polish"
        [("original_text", .str "   "), ("prompt", .str "p")]
      = .error (.mcpError INVALID_PARAMS "Original text is required")
    ∧ createJsonEndpointBody (polishCallTool fun _ => .ok "polished") "polish"
        [("original_text", .str "   "), ("prompt", .str "p")]
      = .ok ⟨false, none, some "Original text is required"⟩ :=
  ⟨rfl, rfl⟩

/-- C8: for every plugin and every `name` not among the names returned by its
`list_tools`, `call_tool` fails with the dedicated unknown-tool `ValueError`
raised by the dispatch prologue (message `"Unknown tool: <name>"` or
`"Unknown tool name: <name>"`), for every possible behavior of the per-name
handler bodies — never with any other exception. -/
theorem call_tool_unknown_capability (t : ToolId)
    (body : String → Args → PyResult) (name : String) (args : Args)
    (h : name ∉ listToolNames t) :
    callToolDispatch t body name args
        = .error (.valueError ("Unknown tool: " ++ name)) ∨
    callToolDispatch t body name args
        = .error (.valueError ("Unknown tool name: " ++ name)) := by
  cases t <;> simp_all [callToolDispatch, listToolNames]

/-- C8 witness: invoking the echo plugin with the unregistered name
`"nope"`. -/
theorem call_tool_unknown_capability_witness :
    ("nope" ∉ listToolNames ToolId.echo) ∧
    (callToolDispatch ToolId.echo (fun _ _ => .ok []) "nope" []
        = .error (.valueError ("Unknown tool: " ++ "nope")) ∨
     callToolDispatch ToolId.echo (fun _ _ => .ok []) "nope" []
        = .error (.valueError ("Unknown tool name: " ++ "nope"))) :=
  ⟨by decide,
   call_tool_unknown_capability ToolId.echo (fun _ _ => .ok []) "nope" []
     (by decide)⟩

/-- C9: the synthesized endpoint response content keeps exactly the result
items that have both a `type` and a `text` attribute: an item lacking either
is silently dropped (removing it from the result list does not change the
response content, and the computation is total, so no error is raised), every
kept item appears as its `{type, text}` projection, and every response entry
comes from such an item. -/
theorem endpoint_content_filters_text_items
    (pre post : List ContentItem) (item : ContentItem)
    (h : ¬(hasTypeAttr item = true ∧ hasTextAttr item = true)) :
    renderContent (pre ++ item :: post) = renderContent (pre ++ post) ∧
    (∀ i ∈ pre ++ post, hasTypeAttr i = true → hasTextAttr i = true →
      (itemType i, itemText i) ∈ renderContent (pre ++ post)) ∧
    (∀ e ∈ renderContent (pre ++ post), ∃ i, i ∈ pre ++ post ∧
      hasTypeAttr i = true ∧ hasTextAttr i = true ∧ e = (itemType i, itemText i)) := by
  refine ⟨?_, ?_, ?_⟩
  · simp [renderContent, List.filterMap_append, List.filterMap_cons, if_neg h]
  · intro i hi hty htx
    simp only [renderContent, List.mem_filterMap]
    exact ⟨i, hi, by simp [hty, htx]⟩
  · intro e he
    simp only [renderContent, List.mem_filterMap] at he
    obtain ⟨i, hi, hsome⟩ := he
    by_cases hc : hasTypeAttr i = true ∧ hasTextAttr i = true
    · refine ⟨i, hi, hc.1, hc.2, ?_⟩
      simp [hc.1, hc.2] at hsome
      exact hsome.symm
    · have hfalse : (hasTypeAttr i && hasTextAttr i) = false := by
        cases h1 : hasTypeAttr i <;> cases h2 : hasTextAttr i <;> simp_all
      simp [hfalse] at hsome

/-- Helper: `dictGet` distributes over append. -/
lemma dictGet_append {α : Type} (l₁ l₂ : List (String × α)) (k : String) :
    dictGet (l₁ ++ l₂) k = (dictGet l₁ k).or (dictGet l₂ k) := by
  induction l₁ with
  | nil => simp [dictGet]
  | cons hd tl ih =>
    obtain ⟨a, b⟩ := hd
    by_cases h : a = k
    · simp [dictGet, h]
    · simp [dictGet, h, ih]

/-- Helper: reading the assigned key after a Python dict assignment yields
the assigned value. -/
lemma dictGet_dictAssign_self {α : Type} (reg : List (String × α))
    (k : String) (v : α) :
    dictGet (dictAssign reg k v) k = some v := by
  induction reg with
  | nil => simp [dictAssign, dictGet]
  | cons hd tl ih =>
    obtain ⟨a, b⟩ := hd
    by_cases hhd : a = k
    · simp [dictAssign, hhd, dictGet]
    · simp [dictAssign, hhd, dictGet, ih]

/-- Helper: assigning one key does not change the value read at a different
key. -/
lemma dictGet_dictAssign_ne {α : Type} (reg : List (String × α))
    (k k' : String) (v : α) (h : k' ≠ k) :
    dictGet (dictAssign reg k' v) k = dictGet reg k := by
  induction reg with
  | nil => simp [dictAssign, dictGet, h]
  | cons hd tl ih =>
    obtain ⟨a, b⟩ := hd
    by_cases hhd : a = k'
    · subst hhd
      simp [dictAssign, dictGet, h]
    · by_cases hak : a = k
      · subst hak
        simp [dictAssign, hhd, dictGet]
      · simp [dictAssign, hhd, dictGet, hak, ih]

/-- Helper: a directory scan over specs none of which carries the key's name
leaves that key's registry entry unchanged. -/
lemma dictGet_discover_no_name (specs : List ToolSpec) (reg : Registry)
    (k : String) (h : ∀ t ∈ specs, t.name ≠ k) :
    dictGet (discoverToolsInDirectory reg specs) k = dictGet reg k := by
  induction specs generalizing reg with
  | nil => rfl
  | cons hd tl ih =>
    have hstep : dictGet (discoverStep reg hd) k = dictGet reg k := by
      unfold discoverStep
      split
      · rfl
      · cases hload : loadAndRegisterToolResult hd with
        | ok inst =>
          exact dictGet_dictAssign_ne reg k hd.name inst
            (h hd (List.mem_cons_self hd tl))
        | error e => rfl
    calc dictGet (discoverToolsInDirectory (discoverStep reg hd) tl) k
        = dictGet (discoverStep reg hd) k :=
          ih (discoverStep reg hd) (fun t ht => h t (List.mem_cons_of_mem hd ht))
      _ = dictGet reg k := hstep

/-- Helper: inserting a route config whose `endpoint` or `params_class` is
missing into the server registration loop adds exactly one logged error and
no route. -/
lemma registerRouteEntries_bad_entry (modname : String)
    (pre post : List RouteConfigEntry) (ep pc : Option String)
    (uf : Bool) (tn : Option String) (h : ep = none ∨ pc = none) :
    registerRouteEntries modname (pre ++ RouteConfigEntry.mk ep pc uf tn :: post) =
      ((registerRouteEntries modname (pre ++ post)).1,
       (registerRouteEntries modname (pre ++ post)).2 + 1) := by
  induction pre with
  | nil =>
    rcases h with h | h <;> subst h <;>
      simp [registerRouteEntries, pyTruthyOptStr]
  | cons hd tl ih =>
    cases hd with
    | nonDict => simp [registerRouteEntries, ih]
    | mk ep' pc' uf' tn' =>
      simp only [List.cons_append, registerRouteEntries, List.append_eq]
      rw [ih]
      split <;> simp

/-- Helper: the same for the routers validation loop. -/
lemma validateRouteEntries_bad_entry (modname : String)
    (pre post : List RouteConfigEntry) (ep pc : Option String)
    (uf : Bool) (tn : Option String) (h : ep = none ∨ pc = none) :
    validateRouteEntries modname (pre ++ RouteConfigEntry.mk ep pc uf tn :: post) =
      ((validateRouteEntries modname (pre ++ post)).1,
       (validateRouteEntries modname (pre ++ post)).2 + 1) := by
  induction pre with
  | nil =>
    rcases h with h | h <;> subst h <;>
      simp [validateRouteEntries, pyTruthyOptStr]
  | cons hd tl ih =>
    cases hd with
    | nonDict => simp [validateRouteEntries, ih]
    | mk ep' pc' uf' tn' =>
      simp only [List.cons_append, validateRouteEntries, List.append_eq]
      rw [ih]
      split <;> simp

/-- C4: a route config missing `endpoint` or `params_class` registers zero
routes, is counted by exactly one `logger.error`, never raises (both
functions are total), and the remaining configs are processed exactly as if
the bad config were absent — in `server.register_tool_routes` and in
`routers.get_route_configs` alike. -/
theorem route_config_missing_field_registers_nothing (modname : String)
    (pre post : List RouteConfigEntry) (ep pc : Option String)
    (uf : Bool) (tn : Option String) (h : ep = none ∨ pc = none) :
    registerToolRoutes modname
        (RouteConfigsValue.listOf (pre ++ RouteConfigEntry.mk ep pc uf tn :: post)) =
      ((registerToolRoutes modname (RouteConfigsValue.listOf (pre ++ post))).1,
       (registerToolRoutes modname (RouteConfigsValue.listOf (pre ++ post))).2 + 1) ∧
    getRouteConfigs modname
        (RouteConfigsValue.listOf (pre ++ RouteConfigEntry.mk ep pc uf tn :: post)) =
      ((getRouteConfigs modname (RouteConfigsValue.listOf (pre ++ post))).1,
       (getRouteConfigs modname (RouteConfigsValue.listOf (pre ++ post))).2 + 1) :=
  ⟨registerRouteEntries_bad_entry modname pre post ep pc uf tn h,
   validateRouteEntries_bad_entry modname pre post ep pc uf tn h⟩

/-- C4 witness: a config list for the polish plugin where the middle config
lacks its `endpoint`. -/
theorem route_config_missing_field_registers_nothing_witness :
    ((none : Option String) = none ∨ (some "PolishParams" : Option String) = none) ∧
    (registerToolRoutes "polish"
        (RouteConfigsValue.listOf
          [RouteConfigEntry.mk (some "/tools/polish") (some "PolishParams") false none,
           RouteConfigEntry.mk none (some "PolishParams") false none,
           RouteConfigEntry.mk (some "/tools/other") (some "OtherParams") true (some "other")]) =
      ((registerToolRoutes "polish"
          (RouteConfigsValue.listOf
            [RouteConfigEntry.mk (some "/tools/polish") (some "PolishParams") false none,
             RouteConfigEntry.mk (some "/tools/other") (some "OtherParams") true (some "other")])).1,
       (registerToolRoutes "polish"
          (RouteConfigsValue.listOf
            [RouteConfigEntry.mk (some "/tools/polish") (some "PolishParams") false none,
             RouteConfigEntry.mk (some "/tools/other") (some "OtherParams") true (some "other")])).2 + 1) ∧
     getRouteConfigs "polish"
        (RouteConfigsValue.listOf
          [RouteConfigEntry.mk (some "/tools/polish") (some "PolishParams") false none,
           RouteConfigEntry.mk none (some "PolishParams") false none,
           RouteConfigEntry.mk (some "/tools/other") (some "OtherParams") true (some "other")]) =
      ((getRouteConfigs "polish"
          (RouteConfigsValue.listOf
            [RouteConfigEntry.mk (some "/tools/polish") (some "PolishParams") false none,
             RouteConfigEntry.mk (some "/tools/other") (some "OtherParams") true (some "other")])).1,
       (getRouteConfigs "polish"
          (RouteConfigsValue.listOf
            [RouteConfigEntry.mk (some "/tools/polish") (some "PolishParams") false none,
             RouteConfigEntry.mk (some "/tools/other") (some "OtherParams") true (some "other")])).2 + 1)) :=
  ⟨Or.inl rfl,
   route_config_missing_field_registers_nothing "polish"
     [RouteConfigEntry.mk (some "/tools/polish") (some "PolishParams") false none]
     [RouteConfigEntry.mk (some "/tools/other") (some "OtherParams") true (some "other")]
     none (some "PolishParams") false none (Or.inl rfl)⟩

/-- C5: a plugin failing at any of the loading steps (missing
`<name>_tool.py`, import error, missing entry class, class not a
`BaseMCPTool` subclass, constructor exception) produces a `ToolLoadError`
before any registration, so the directory scan yields exactly the registry it
would yield without that plugin (no partial state), and every later plugin is
still processed; the scan itself is total, so the process does not fail. -/
theorem failed_plugin_absent_discovery_continues
    (reg : Registry) (pre post : List ToolSpec) (spec : ToolSpec)
    (hfail : spec.hasToolFile = false ∨ spec.importOk = false ∨
      spec.hasToolClass = false ∨ spec.isSubclass = false ∨ spec.ctorOk = false) :
    (∃ e, loadAndRegisterToolResult spec = Except.error e) ∧
    discoverToolsInDirectory reg (pre ++ spec :: post) =
      discoverToolsInDirectory reg (pre ++ post) := by
  have herr : ∃ e, loadAndRegisterToolResult spec = Except.error e := by
    unfold loadAndRegisterToolResult
    split_ifs <;>
      first
        | exact ⟨_, rfl⟩
        | (rcases hfail with h | h | h | h | h <;> simp_all)
  refine ⟨herr, ?_⟩
  obtain ⟨e, he⟩ := herr
  have hstep : ∀ r, discoverStep r spec = r := by
    intro r
    unfold discoverStep
    split
    · rfl
    · rw [he]
  simp [discoverToolsInDirectory, List.foldl_append, hstep]

/-- C5 witness: a scan over three candidates where the middle plugin's
constructor raises. -/
theorem failed_plugin_absent_discovery_continues_witness :
    ((⟨"bad", true, true, true, true, true, false, 7⟩ : ToolSpec).hasToolFile = false ∨
     (⟨"bad", true, true, true, true, true, false, 7⟩ : ToolSpec).importOk = false ∨
     (⟨"bad", true, true, true, true, true, false, 7⟩ : ToolSpec).hasToolClass = false ∨
     (⟨"bad", true, true, true, true, true, false, 7⟩ : ToolSpec).isSubclass = false ∨
     (⟨"bad", true, true, true, true, true, false, 7⟩ : ToolSpec).ctorOk = false) ∧
    ((∃ e, loadAndRegisterToolResult ⟨"bad", true, true, true, true, true, false, 7⟩ =
        Except.error e) ∧
     discoverToolsInDirectory []
        ([⟨"echo", true, true, true, true, true, true, 1⟩] ++
          (⟨"bad", true, true, true, true, true, false, 7⟩ : ToolSpec) ::
            [⟨"fetch", true, true, true, true, true, true, 2⟩]) =
      discoverToolsInDirectory []
        ([⟨"echo", true, true, true, true, true, true, 1⟩] ++
          [⟨"fetch", true, true, true, true, true, true, 2⟩])) :=
  ⟨by decide,
   failed_plugin_absent_discovery_continues []
     [⟨"echo", true, true, true, true, true, true, 1⟩]
     [⟨"fetch", true, true, true, true, true, true, 2⟩]
     ⟨"bad", true, true, true, true, true, false, 7⟩ (by decide)⟩

/-- The first discovered `foo` plugin (built-in root), instance id 1. -/
def fooSpecFirst : ToolSpec := ⟨"foo", true, true, true, true, true, true, 1⟩

/-- The later discovered `foo` plugin (extension root), instance id 2. -/
def fooSpecSecond : ToolSpec := ⟨"foo", true, true, true, true, true, true, 2⟩

/-- C2 counterexample: two roots each containing a loadable plugin directory
named `foo`. The claim says the first discovered instance (id 1) remains
registered; the code's `self.tools[modname] = tool_instance` has no
duplicate check, so after discovery the registry holds the second instance
(id 2), not the first. -/
theorem duplicate_plugin_first_wins_counterexample :
    dictGet (discoverTools [⟨true, [fooSpecFirst]⟩, ⟨true, [fooSpecSecond]⟩])
        "foo" = some 2 ∧
    dictGet (discoverTools [⟨true, [fooSpecFirst]⟩, ⟨true, [fooSpecSecond]⟩])
        "foo" ≠ some 1 := by
  constructor
  · rfl
  · intro hc
    simp [fooSpecFirst, fooSpecSecond, discoverTools, discoverToolsInDirectory,
      discoverStep, loadAndRegisterToolResult, dictAssign, dictGet] at hc

/-- C2 (amended): when two plugin roots are processed in order and a later
root contains a plugin directory with the same name as one in an earlier
root, the later plugin — provided it loads successfully and no plugin after
it shares the name — replaces the earlier registration: the registry maps the
shared name to the *last* successfully loaded instance. No duplicate is
detected, logged or skipped. -/
theorem duplicate_plugin_last_registration_wins
    (as bs cs ds : List ToolSpec) (s₁ s₂ : ToolSpec) (i₂ : Nat)
    (hname : s₁.name = s₂.name)
    (hcand : s₂.isCandidate = true)
    (hload : loadAndRegisterToolResult s₂ = Except.ok i₂)
    (hds : ∀ t ∈ ds, t.name ≠ s₂.name) :
    dictGet (discoverTools [⟨true, as ++ s₁ :: bs⟩, ⟨true, cs ++ s₂ :: ds⟩])
        s₁.name = some i₂ := by
  rw [hname]
  have h1 : discoverTools [⟨true, as ++ s₁ :: bs⟩, ⟨true, cs ++ s₂ :: ds⟩] =
      discoverToolsInDirectory
        (discoverToolsInDirectory [] (as ++ s₁ :: bs)) (cs ++ s₂ :: ds) := by
    simp [discoverTools]
  rw [h1]
  have h2 : discoverToolsInDirectory
      (discoverToolsInDirectory [] (as ++ s₁ :: bs)) (cs ++ s₂ :: ds) =
      discoverToolsInDirectory
        (discoverStep
          (discoverToolsInDirectory
            (discoverToolsInDirectory [] (as ++ s₁ :: bs)) cs) s₂) ds := by
    simp [discoverToolsInDirectory, List.foldl_append]
  rw [h2]
  have h3 : discoverStep
      (discoverToolsInDirectory
        (discoverToolsInDirectory [] (as ++ s₁ :: bs)) cs) s₂ =
      dictAssign
        (discoverToolsInDirectory
          (discoverToolsInDirectory [] (as ++ s₁ :: bs)) cs) s₂.name i₂ := by
    simp [discoverStep, hcand, hload]
  rw [h3]
  rw [dictGet_discover_no_name ds _ s₂.name hds]
  exact dictGet_dictAssign_self _ s₂.name i₂

/-- C2 witness: the two-root `foo`/`foo` scenario; the registry ends up
holding instance id 2. -/
theorem duplicate_plugin_last_registration_wins_witness :
    (fooSpecFirst.name = fooSpecSecond.name) ∧
    (fooSpecSecond.isCandidate = true) ∧
    (loadAndRegisterToolResult fooSpecSecond = Except.ok 2) ∧
    (∀ t ∈ ([] : List ToolSpec), t.name ≠ fooSpecSecond.name) ∧
    dictGet (discoverTools
        [⟨true, [] ++ fooSpecFirst :: []⟩, ⟨true, [] ++ fooSpecSecond :: []⟩])
      fooSpecFirst.name = some 2 :=
  ⟨rfl, rfl, rfl, by decide,
   duplicate_plugin_last_registration_wins [] [] [] [] fooSpecFirst fooSpecSecond 2
     rfl rfl rfl (by decide)⟩

/-- Helper: merging only appends new keys at the end of the section. -/
lemma mergeRequirements_prefix (reqs : List (String × ConfigValue))
    (ext ext' : ExtensionSection) (m : Bool)
    (h : mergeRequirements ext reqs = some (ext', m)) :
    ∃ suf, ext' = ext ++ suf := by
  induction reqs generalizing ext ext' m with
  | nil =>
    simp only [mergeRequirements, Option.some_inj, Prod.mk.injEq] at h
    exact ⟨[], by simp [← h.1]⟩
  | cons hd tl ih =>
    obtain ⟨key, value⟩ := hd
    simp only [mergeRequirements] at h
    split at h
    · exact ih ext ext' m h
    · cases htv : templateValue value with
      | none => rw [htv] at h; simp at h
      | some tv =>
        rw [htv, Option.some_bind] at h
        cases hm : mergeRequirements (ext ++ [(key, tv)]) tl with
        | none => rw [hm] at h; simp at h
        | some r =>
          obtain ⟨rext, rm⟩ := r
          rw [hm] at h
          simp only [Option.map_some', Option.some_inj, Prod.mk.injEq] at h
          obtain ⟨suf, hs⟩ := ih (ext ++ [(key, tv)]) rext rm hm
          refine ⟨(key, tv) :: suf, ?_⟩
          rw [← h.1, hs]
          simp

/-- Helper: a key bound in the section stays bound to the same value after a
merge. -/
lemma dictGet_mergeRequirements_mono (reqs : List (String × ConfigValue))
    (ext ext' : ExtensionSection) (m : Bool) (k : String) (w : ConfigValue)
    (h : mergeRequirements ext reqs = some (ext', m))
    (hk : dictGet ext k = some w) :
    dictGet ext' k = some w := by
  obtain ⟨suf, hs⟩ := mergeRequirements_prefix reqs ext ext' m h
  rw [hs, dictGet_append, hk]
  rfl

/-- Helper: after a successful merge every requirement key is bound in the
resulting section. -/
lemma mergeRequirements_all_present (reqs : List (String × ConfigValue))
    (ext ext' : ExtensionSection) (m : Bool)
    (h : mergeRequirements ext reqs = some (ext', m)) :
    ∀ kv ∈ reqs, (dictGet ext' kv.1).isSome := by
  induction reqs generalizing ext ext' m with
  | nil => intro kv hkv; simp at hkv
  | cons hd tl ih =>
    obtain ⟨key, value⟩ := hd
    simp only [mergeRequirements] at h
    split at h
    · rename_i hpres
      intro kv hkv
      rcases List.mem_cons.mp hkv with rfl | hmem
      · obtain ⟨w, hw⟩ := Option.isSome_iff_exists.mp hpres
        rw [dictGet_mergeRequirements_mono tl ext ext' m key w h hw]
        rfl
      · exact ih ext ext' m h kv hmem
    · rename_i hpres
      cases htv : templateValue value with
      | none => rw [htv] at h; simp at h
      | some tv =>
        rw [htv, Option.some_bind] at h
        cases hm : mergeRequirements (ext ++ [(key, tv)]) tl with
        | none => rw [hm] at h; simp at h
        | some r =>
          obtain ⟨rext, rm⟩ := r
          rw [hm] at h
          simp only [Option.map_some', Option.some_inj, Prod.mk.injEq] at h
          intro kv hkv
          rcases List.mem_cons.mp hkv with rfl | hmem
          · have hnew : dictGet (ext ++ [(key, tv)]) key = some tv := by
              rw [dictGet_append]
              have hx : dictGet ext key = none :=
                Option.not_isSome_iff_eq_none.mp hpres
              rw [hx]
              simp [dictGet]
            rw [← h.1,
              dictGet_mergeRequirements_mono tl (ext ++ [(key, tv)]) rext rm
                key tv hm hnew]
            rfl
          · rw [← h.1]
            exact ih (ext ++ [(key, tv)]) rext rm hm kv hmem

/-- Helper: when every requirement key is already bound, the merge changes
nothing and reports `was_modified = false`. -/
lemma mergeRequirements_no_missing (reqs : List (String × ConfigValue))
    (ext : ExtensionSection)
    (h : ∀ kv ∈ reqs, (dictGet ext kv.1).isSome) :
    mergeRequirements ext reqs = some (ext, false) := by
  induction reqs with
  | nil => rfl
  | cons hd tl ih =>
    obtain ⟨key, value⟩ := hd
    simp only [mergeRequirements]
    rw [if_pos (h (key, value) (List.mem_cons_self _ _))]
    exact ih fun kv hkv => h kv (List.mem_cons_of_mem _ hkv)

/-- Helper: a merge that reports `was_modified = false` left the section
unchanged. -/
lemma mergeRequirements_unmodified (reqs : List (String × ConfigValue))
    (ext ext' : ExtensionSection)
    (h : mergeRequirements ext reqs = some (ext', false)) :
    ext' = ext := by
  induction reqs generalizing ext ext' with
  | nil =>
    simp only [mergeRequirements, Option.some_inj, Prod.mk.injEq] at h
    exact h.1.symm
  | cons hd tl ih =>
    obtain ⟨key, value⟩ := hd
    simp only [mergeRequirements] at h
    split at h
    · exact ih ext ext' h
    · cases htv : templateValue value with
      | none => rw [htv] at h; simp at h
      | some tv =>
        rw [htv, Option.some_bind] at h
        cases hm : mergeRequirements (ext ++ [(key, tv)]) tl with
        | none => rw [hm] at h; simp at h
        | some r =>
          obtain ⟨rext, rm⟩ := r
          rw [hm] at h
          simp only [Option.map_some', Option.some_inj, Prod.mk.injEq] at h
          exact absurd h.2 (by simp)

/-- Helper: a requirement key absent from the section is added by the merge,
bound to its template value, and flips the dirty flag. -/
lemma mergeRequirements_adds_first (reqs : List (String × ConfigValue))
    (ext ext' : ExtensionSection) (m : Bool) (key : String) (v : ConfigValue)
    (habs : dictGet ext key = none)
    (hreq : dictGet reqs key = some v)
    (h : mergeRequirements ext reqs = some (ext', m)) :
    ∃ tv, templateValue v = some tv ∧ dictGet ext' key = some tv ∧ m = true := by
  induction reqs generalizing ext ext' m with
  | nil => simp [dictGet] at hreq
  | cons hd tl ih =>
    obtain ⟨k, w⟩ := hd
    by_cases hk : k = key
    · subst hk
      have hv : w = v := by simpa [dictGet] using hreq
      subst hv
      simp only [mergeRequirements] at h
      rw [if_neg (by simp [habs])] at h
      cases htv : templateValue w with
      | none => rw [htv] at h; simp at h
      | some tv =>
        rw [htv, Option.some_bind] at h
        cases hm : mergeRequirements (ext ++ [(k, tv)]) tl with
        | none => rw [hm] at h; simp at h
        | some r =>
          obtain ⟨rext, rm⟩ := r
          rw [hm] at h
          simp only [Option.map_some', Option.some_inj, Prod.mk.injEq] at h
          refine ⟨tv, rfl, ?_, h.2.symm⟩
          rw [← h.1]
          exact dictGet_mergeRequirements_mono tl (ext ++ [(k, tv)]) rext rm k tv
            hm (by rw [dictGet_append, habs]; simp [dictGet])
    · have hreq' : dictGet tl key = some v := by simpa [dictGet, hk] using hreq
      simp only [mergeRequirements] at h
      split at h
      · exact ih ext ext' m habs hreq' h
      · cases htv : templateValue w with
        | none => rw [htv] at h; simp at h
        | some tvk =>
          rw [htv, Option.some_bind] at h
          cases hm : mergeRequirements (ext ++ [(k, tvk)]) tl with
          | none => rw [hm] at h; simp at h
          | some r =>
            obtain ⟨rext, rm⟩ := r
            rw [hm] at h
            simp only [Option.map_some', Option.some_inj, Prod.mk.injEq] at h
            have habs' : dictGet (ext ++ [(k, tvk)]) key = none := by
              rw [dictGet_append, habs]
              simp [dictGet, hk]
            obtain ⟨tv, htv2, hget, _⟩ := ih (ext ++ [(k, tvk)]) rext rm habs' hreq' hm
            exact ⟨tv, htv2, by rw [← h.1]; exact hget, h.2.symm⟩

/-- Helper: after `ensureSection`, the extension's section is exactly what
the central config held (or empty). -/
lemma dictGet_ensureSection_self (central : CentralConfig) (name : String) :
    dictGet (ensureSection central name) name =
      some ((dictGet central name).getD []) := by
  unfold ensureSection
  by_cases hs : (dictGet central name).isSome
  · rw [if_pos hs]
    obtain ⟨s, hg⟩ := Option.isSome_iff_exists.mp hs
    rw [hg]
    rfl
  · rw [if_neg hs]
    have hn : dictGet central name = none := Option.not_isSome_iff_eq_none.mp hs
    rw [dictGet_append, hn]
    simp [dictGet]

/-- Helper: decomposition of a successful `get_extension_config` call with
non-empty requirements into its merge outcome. -/
lemma getExtensionConfig_decomp (store : CentralConfig) (name : String)
    (r0 : String × ConfigValue) (rs : List (String × ConfigValue))
    (store₁ : CentralConfig) (m₁ : Bool) (sec₁ : ExtensionSection)
    (h : getExtensionConfig store name (r0 :: rs) true = some (store₁, m₁, sec₁)) :
    mergeRequirements ((dictGet (ensureSection store name) name).getD [])
        (r0 :: rs) = some (sec₁, m₁) ∧
    store₁ =
      (if m₁ then dictAssign (ensureSection store name) name sec₁ else store) := by
  simp only [getExtensionConfig, mergeConfigRequirements] at h
  rw [if_pos (by simp)] at h
  cases hm : mergeRequirements ((dictGet (ensureSection store name) name).getD [])
      (r0 :: rs) with
  | none => rw [hm] at h; simp at h
  | some r =>
    obtain ⟨ext₀, mflag⟩ := r
    rw [hm] at h
    simp only [Option.map_some'] at h
    have hsec : (dictGet (dictAssign (ensureSection store name) name ext₀)
        name).getD [] = ext₀ := by
      rw [dictGet_dictAssign_self]
      rfl
    rw [hsec] at h
    simp only [Option.some_inj, Prod.mk.injEq] at h
    obtain ⟨h1, h2, h3⟩ := h
    subst h2
    subst h3
    exact ⟨rfl, h1.symm⟩

/-- Helper: a successful `get_extension_config` call reaches a fixpoint: the
call repeated on the resulting persisted store reports `was_modified = false`
(hence performs no write) and returns the same store and section. -/
lemma getExtensionConfig_stable (store : CentralConfig) (name : String)
    (reqs : List (String × ConfigValue)) (store₁ : CentralConfig) (m₁ : Bool)
    (sec₁ : ExtensionSection)
    (h : getExtensionConfig store name reqs true = some (store₁, m₁, sec₁)) :
    getExtensionConfig store₁ name reqs true = some (store₁, false, sec₁) := by
  cases reqs with
  | nil =>
    unfold getExtensionConfig at h ⊢
    rw [if_neg (by simp)] at h ⊢
    simp only [Option.some_inj, Prod.mk.injEq] at h
    obtain ⟨h1, h2, h3⟩ := h
    subst h1
    rw [h3]
  | cons r0 rs =>
    obtain ⟨hm, hstore₁⟩ := getExtensionConfig_decomp store name r0 rs store₁ m₁ sec₁ h
    have hall := mergeRequirements_all_present (r0 :: rs) _ sec₁ m₁ hm
    have hstore₁get : dictGet store₁ name = some sec₁ := by
      cases m₁ with
      | true =>
        rw [hstore₁, if_pos rfl]
        exact dictGet_dictAssign_self _ name sec₁
      | false =>
        have hunmod : sec₁ = (dictGet (ensureSection store name) name).getD [] :=
          mergeRequirements_unmodified (r0 :: rs) _ sec₁ hm
        rw [hstore₁, if_neg (by simp)]
        by_cases hpres : (dictGet store name).isSome
        · obtain ⟨s, hg⟩ := Option.isSome_iff_exists.mp hpres
          have hens : ensureSection store name = store := by
            unfold ensureSection
            rw [if_pos hpres]
          rw [hens, hg] at hunmod
          rw [hg, hunmod]
          rfl
        · exfalso
          have hens : dictGet (ensureSection store name) name = some [] := by
            rw [dictGet_ensureSection_self,
              Option.not_isSome_iff_eq_none.mp hpres]
            rfl
          rw [hens] at hunmod
          have hr0 := hall r0 (List.mem_cons_self _ _)
          rw [hunmod] at hr0
          simp [dictGet] at hr0
    have hens₁ : ensureSection store₁ name = store₁ := by
      unfold ensureSection
      rw [if_pos (by rw [hstore₁get]; rfl)]
    simp only [getExtensionConfig, mergeConfigRequirements]
    rw [if_pos (by simp), hens₁, hstore₁get]
    have hgd : (some sec₁).getD ([] : ExtensionSection) = sec₁ := rfl
    rw [hgd, mergeRequirements_no_missing (r0 :: rs) sec₁ hall]
    simp only [Option.map_some']
    rw [dictGet_dictAssign_self]
    simp

/-- C6: calling `get_extension_config` twice in a row for the same plugin
with identical `config_requirements` leaves the persisted central store
unchanged on the second call: once the first call has added all missing keys,
the second call computes `was_modified = false` (so `_save_config` is never
reached) and returns the same store and section. -/
theorem get_plugin_config_idempotent (store : CentralConfig) (name : String)
    (reqs : List (String × ConfigValue)) (store₁ : CentralConfig) (m₁ : Bool)
    (sec₁ : ExtensionSection)
    (h : getExtensionConfig store name reqs true = some (store₁, m₁, sec₁)) :
    getExtensionConfig store₁ name reqs true = some (store₁, false, sec₁) :=
  getExtensionConfig_stable store name reqs store₁ m₁ sec₁ h

/-- C6 witness: an empty store and one `type: string` requirement; the first
call creates the key and writes, the second call reports `was_modified =
false` and leaves the store as it was. -/
theorem get_plugin_config_idempotent_witness :
    (getExtensionConfig [] "ext"
        [("api_key", ConfigValue.dict [("type", ConfigValue.str "string")])] true =
      some ([("ext", [("api_key", ConfigValue.str "")])], true,
        [("api_key", ConfigValue.str "")])) ∧
    getExtensionConfig [("ext", [("api_key", ConfigValue.str "")])] "ext"
        [("api_key", ConfigValue.dict [("type", ConfigValue.str "string")])] true =
      some ([("ext", [("api_key", ConfigValue.str "")])], false,
        [("api_key", ConfigValue.str "")]) :=
  ⟨rfl,
   get_plugin_config_idempotent [] "ext"
     [("api_key", ConfigValue.dict [("type", ConfigValue.str "string")])]
     [("ext", [("api_key", ConfigValue.str "")])] true
     [("api_key", ConfigValue.str "")] rfl⟩

/-- Helper: on the six types of the spec's table, the source's
`type_defaults` lookup produces exactly the spec's zero value. -/
lemma typeZeroValue_matches_spec (s : String) (z : ConfigValue)
    (hz : specZeroValue s = some z) : typeZeroValue s = z := by
  unfold specZeroValue at hz
  unfold typeZeroValue
  split_ifs at hz ⊢ <;> simp_all

/-- C7: a requirement key whose descriptor declares a `type` from the fixed
table (`string→"", int→0, float→0.0, bool→false, list→[], dict→{}`) and
carries no explicit `default`, and which is absent from the store's section,
is auto-created with that zero value, and a subsequent `get_config_value` on
the resulting store returns exactly that synthesized value. -/
theorem auto_create_zero_value_round_trip (store : CentralConfig)
    (name key : String) (reqs fields : List (String × ConfigValue))
    (t : String) (z dflt : ConfigValue)
    (store₁ : CentralConfig) (m₁ : Bool) (sec₁ : ExtensionSection)
    (hreq : dictGet reqs key = some (ConfigValue.dict fields))
    (hnodef : dictGet fields "default" = none)
    (htype : dictGet fields "type" = some (ConfigValue.str t))
    (hz : specZeroValue (pyToLower t) = some z)
    (habs : dictGet ((dictGet store name).getD []) key = none)
    (h : getExtensionConfig store name reqs true = some (store₁, m₁, sec₁)) :
    getConfigValue store₁ name key reqs dflt = some z := by
  cases reqs with
  | nil => simp [dictGet] at hreq
  | cons r0 rs =>
    obtain ⟨hm, _⟩ := getExtensionConfig_decomp store name r0 rs store₁ m₁ sec₁ h
    have habs' : dictGet ((dictGet (ensureSection store name) name).getD [])
        key = none := by
      rw [dictGet_ensureSection_self]
      exact habs
    obtain ⟨tv, htv, hget, _⟩ :=
      mergeRequirements_adds_first (r0 :: rs) _ sec₁ m₁ key
        (ConfigValue.dict fields) habs' hreq hm
    have htv' : templateValue (ConfigValue.dict fields) =
        some (typeZeroValue (pyToLower t)) := by
      simp [templateValue, hnodef, htype]
    have htvz : tv = z := by
      rw [htv'] at htv
      have h1 : typeZeroValue (pyToLower t) = tv := Option.some_inj.mp htv
      rw [← h1]
      exact typeZeroValue_matches_spec (pyToLower t) z hz
    have hstable := getExtensionConfig_stable store name (r0 :: rs) store₁ m₁ sec₁ h
    unfold getConfigValue
    rw [hstable]
    simp only [Option.map_some']
    rw [hget, htvz]
    rfl

/-- C7 witness: the `type: string` requirement auto-created in an empty
store; reading it back yields the synthesized `""`. -/
theorem auto_create_zero_value_round_trip_witness :
    (dictGet [("api_key", ConfigValue.dict [("type", ConfigValue.str "string")])]
        "api_key" = some (ConfigValue.dict [("type", ConfigValue.str "string")])) ∧
    (dictGet [("type", ConfigValue.str "string")] "default" = none) ∧
    (dictGet [("type", ConfigValue.str "string")] "type" =
      some (ConfigValue.str "string")) ∧
    (specZeroValue (pyToLower "string") = some (ConfigValue.str "")) ∧
    (dictGet ((dictGet ([] : CentralConfig) "ext").getD []) "api_key" = none) ∧
    (getExtensionConfig [] "ext"
        [("api_key", ConfigValue.dict [("type", ConfigValue.str "string")])] true =
      some ([("ext", [("api_key", ConfigValue.str "")])], true,
        [("api_key", ConfigValue.str "")])) ∧
    getConfigValue [("ext", [("api_key", ConfigValue.str "")])] "ext" "api_key"
        [("api_key", ConfigValue.dict [("type", ConfigValue.str "string")])]
        ConfigValue.null =
      some (ConfigValue.str "") :=
  ⟨rfl, rfl, rfl, rfl, rfl, rfl,
   auto_create_zero_value_round_trip [] "ext" "api_key"
     [("api_key", ConfigValue.dict [("type", ConfigValue.str "string")])]
     [("type", ConfigValue.str "string")] "string" (ConfigValue.str "")
     ConfigValue.null [("ext", [("api_key", ConfigValue.str "")])] true
     [("api_key", ConfigValue.str "")] rfl rfl rfl rfl rfl rfl⟩

/-- C9 witness: a result list where an image item sits between two text
items; the image is dropped from the response content, which keeps exactly
the two text projections. -/
theorem endpoint_content_filters_text_items_witness :
    (¬(hasTypeAttr (ContentItem.image "image" "QUJD" "image/png") = true ∧
       hasTextAttr (ContentItem.image "image" "QUJD" "image/png") = true)) ∧
    (renderContent ([ContentItem.text "text" "a"] ++
        ContentItem.image "image" "QUJD" "image/png" ::
          [ContentItem.text "text" "b"]) =
      renderContent ([ContentItem.text "text" "a"] ++
        [ContentItem.text "text" "b"]) ∧
     (∀ i ∈ [ContentItem.text "text" "a"] ++ [ContentItem.text "text" "b"],
        hasTypeAttr i = true → hasTextAttr i = true →
        (itemType i, itemText i) ∈
          renderContent ([ContentItem.text "text" "a"] ++
            [ContentItem.text "text" "b"])) ∧
     (∀ e ∈ renderContent ([ContentItem.text "text" "a"] ++
          [ContentItem.text "text" "b"]),
        ∃ i, i ∈ [ContentItem.text "text" "a"] ++ [ContentItem.text "text" "b"] ∧
          hasTypeAttr i = true ∧ hasTextAttr i = true ∧
          e = (itemType i, itemText i))) :=
  ⟨by decide,
   endpoint_content_filters_text_items [ContentItem.text "text" "a"]
     [ContentItem.text "text" "b"]
     (ContentItem.image "image" "QUJD" "image/png") (by decide)⟩
